import Mathlib

/-!
Verification development for the 3D-Mind volumetric viewer core
(`drawScan` module): resolution pyramid builder, render throttler,
smooth zoom handler, LOD state manager, clipping geometry and the
viewer facade mutators, shallowly embedded from the TypeScript source.

Machine `Uint16Array` voxel buffers are modelled as `List Nat` with the
JavaScript out-of-range-read-coerces-to-0 behaviour (`List.getD _ _ 0`);
JavaScript numbers appearing in timing, spacing and opacity arithmetic
are modelled as rationals.
-/

set_option autoImplicit false

namespace ThreeDMind

/-! ## Resolution pyramid builder (`downsample3D`, `loadMultiResVolumeData`) -/

/-- `Math.ceil (n / f)` for natural `n` and positive natural `f`. -/
def ceilDiv (n f : Nat) : Nat := (n + f - 1) / f

/-- Volume dimensions `(nx, ny, nz)`. -/
structure Dims3 where
  nx : Nat
  ny : Nat
  nz : Nat
deriving DecidableEq

/-- Physical voxel spacing `(sx, sy, sz)`. -/
structure Spacing3 where
  sx : ℚ
  sy : ℚ
  sz : ℚ
deriving DecidableEq

/-- Read the flat voxel buffer at 3-index `(x, y, z)` under dims `d`
(row-major `x + y*nx + z*nx*ny`, out-of-range reads give 0 as for a
JavaScript typed array). -/
def voxelAt (data : List Nat) (d : Dims3) (x y z : Nat) : Nat :=
  data.getD (x + y * d.nx + z * d.nx * d.ny) 0

/-- Embedding of `downsample3D(data, dims, factor)`: output dims are
`ceil(srcDim/factor)` per axis and the output voxel at `(x,y,z)` is the
source voxel at per-axis index `min (x*factor) (srcDim-1)`
(nearest-neighbor sample, written in the source loop order). -/
def downsample3D (data : List Nat) (d : Dims3) (factor : Nat) :
    List Nat × Dims3 :=
  let nx2 := ceilDiv d.nx factor
  let ny2 := ceilDiv d.ny factor
  let nz2 := ceilDiv d.nz factor
  ((List.range nz2).flatMap fun z =>
    (List.range ny2).flatMap fun y =>
      (List.range nx2).map fun x =>
        data.getD (min (x * factor) (d.nx - 1) + min (y * factor) (d.ny - 1) * d.nx
          + min (z * factor) (d.nz - 1) * d.nx * d.ny) 0,
   ⟨nx2, ny2, nz2⟩)

/-- One resolution tier: voxel buffer, dims, physical spacing. -/
structure Tier where
  data : List Nat
  dims : Dims3
  spacing : Spacing3
deriving DecidableEq

/-- The three-tier pyramid produced by `loadMultiResVolumeData`. -/
structure MultiResVolumeData where
  fullRes : Tier
  halfRes : Tier
  quarterRes : Tier
  dims : Dims3
  spacing : Spacing3
deriving DecidableEq

/-- Embedding of the pyramid-construction part of
`loadMultiResVolumeData`: full tier is the source unchanged, half tier
is `downsample3D` at factor 2 with doubled spacing, quarter tier is
`downsample3D` at factor 4 with quadrupled spacing.  (The NIfTI fetch
and decode that precede this in the source are external collaborators.) -/
def loadMultiResVolumeData (data : List Nat) (dims : Dims3) (spacing : Spacing3) :
    MultiResVolumeData :=
  let half := downsample3D data dims 2
  let quarter := downsample3D data dims 4
  { fullRes := ⟨data, dims, spacing⟩
    halfRes := ⟨half.1, half.2, ⟨spacing.sx * 2, spacing.sy * 2, spacing.sz * 2⟩⟩
    quarterRes := ⟨quarter.1, quarter.2, ⟨spacing.sx * 4, spacing.sy * 4, spacing.sz * 4⟩⟩
    dims := dims
    spacing := spacing }

/-! ### Flat-index access lemmas for the downsampled buffer -/

theorem length_bind_const {α β : Type} (l : List α) (g : α → List β) (L : Nat)
    (h : ∀ a ∈ l, (g a).length = L) : (l.flatMap g).length = l.length * L := by
  induction l with
  | nil => simp
  | cons a t ih =>
      simp only [List.flatMap_cons, List.length_append, List.length_cons]
      rw [h a (List.mem_cons_self a t), ih fun b hb => h b (List.mem_cons_of_mem a hb)]
      ring

theorem getD_bind_blocks {β : Type} (n L : Nat) (g : Nat → List β)
    (h : ∀ i < n, (g i).length = L) (z r : Nat) (hz : z < n) (hr : r < L) (d : β) :
    ((List.range n).flatMap g).getD (z * L + r) d = (g z).getD r d := by
  induction n with
  | zero => omega
  | succ m ih =>
      rw [List.range_succ, List.flatMap_append]
      rcases Nat.lt_or_ge z m with hzm | hzm
      · have hlen : ((List.range m).flatMap g).length = m * L := by
          have := length_bind_const (List.range m) g L
            (fun a ha => h a (Nat.lt_succ_of_lt (List.mem_range.mp ha)))
          simpa using this
        have hidx : z * L + r < ((List.range m).flatMap g).length := by
          rw [hlen]
          calc z * L + r < z * L + L := by omega
            _ = (z + 1) * L := by ring
            _ ≤ m * L := Nat.mul_le_mul_right L hzm
        rw [List.getD_append _ _ _ _ hidx]
        exact ih (fun i hi => h i (Nat.lt_succ_of_lt hi)) hzm
      · have hzm' : z = m := by omega
        subst hzm'
        have hlen : ((List.range z).flatMap g).length = z * L := by
          have := length_bind_const (List.range z) g L
            (fun a ha => h a (Nat.lt_succ_of_lt (List.mem_range.mp ha)))
          simpa using this
        have hge : ((List.range z).flatMap g).length ≤ z * L + r := by omega
        rw [List.getD_append_right _ _ _ _ hge, hlen]
        simp

theorem getD_range_map {β : Type} (n : Nat) (f : Nat → β) (x : Nat) (hx : x < n) (d : β) :
    ((List.range n).map f).getD x d = f x := by
  have hx' : x < ((List.range n).map f).length := by simpa using hx
  rw [List.getD_eq_getElem _ _ hx']
  simp

/-- Reading back the downsampled buffer at flat index
`x + y*nx2 + z*nx2*ny2` yields the nearest-neighbor source sample. -/
theorem downsample3D_voxel (data : List Nat) (d : Dims3) (factor : Nat)
    (x y z : Nat)
    (hx : x < ceilDiv d.nx factor) (hy : y < ceilDiv d.ny factor)
    (hz : z < ceilDiv d.nz factor) :
    (downsample3D data d factor).1.getD
        (x + y * ceilDiv d.nx factor + z * (ceilDiv d.nx factor * ceilDiv d.ny factor)) 0 =
      data.getD (min (x * factor) (d.nx - 1) + min (y * factor) (d.ny - 1) * d.nx
        + min (z * factor) (d.nz - 1) * d.nx * d.ny) 0 := by
  set nx2 := ceilDiv d.nx factor with hnx2
  set ny2 := ceilDiv d.ny factor with hny2
  set nz2 := ceilDiv d.nz factor with hnz2
  have houter : ∀ i < nz2,
      ((List.range ny2).flatMap fun y0 =>
        (List.range nx2).map fun x0 =>
          data.getD (min (x0 * factor) (d.nx - 1) + min (y0 * factor) (d.ny - 1) * d.nx
            + min (i * factor) (d.nz - 1) * d.nx * d.ny) 0).length = ny2 * nx2 := by
    intro i _
    have := length_bind_const (List.range ny2)
      (fun y0 => (List.range nx2).map fun x0 =>
        data.getD (min (x0 * factor) (d.nx - 1) + min (y0 * factor) (d.ny - 1) * d.nx
          + min (i * factor) (d.nz - 1) * d.nx * d.ny) 0) nx2 (fun a _ => by simp)
    simpa using this
  have hidx : x + y * nx2 + z * (nx2 * ny2) = z * (ny2 * nx2) + (y * nx2 + x) := by ring
  rw [downsample3D]
  simp only
  rw [hidx]
  rw [getD_bind_blocks nz2 (ny2 * nx2) _ houter z (y * nx2 + x) hz
    (by calc y * nx2 + x < y * nx2 + nx2 := by omega
      _ = (y + 1) * nx2 := by ring
      _ ≤ ny2 * nx2 := Nat.mul_le_mul_right nx2 hy) 0]
  rw [getD_bind_blocks ny2 nx2 _ (fun i _ => by simp) y x hy hx 0]
  rw [getD_range_map nx2 _ x hx 0]

/-- `downsample3D` read back through `voxelAt` under the output dims. -/
theorem downsample3D_voxelAt (data : List Nat) (d : Dims3) (fac : Nat)
    (x y z : Nat)
    (hx : x < ceilDiv d.nx fac) (hy : y < ceilDiv d.ny fac)
    (hz : z < ceilDiv d.nz fac) :
    voxelAt (downsample3D data d fac).1 (downsample3D data d fac).2 x y z
      = voxelAt data d (min (x * fac) (d.nx - 1)) (min (y * fac) (d.ny - 1))
          (min (z * fac) (d.nz - 1)) := by
  have h := downsample3D_voxel data d fac x y z hx hy hz
  have e2 : (downsample3D data d fac).2
      = ⟨ceilDiv d.nx fac, ceilDiv d.ny fac, ceilDiv d.nz fac⟩ := rfl
  unfold voxelAt
  rw [e2]
  simp only
  have hidx : x + y * ceilDiv d.nx fac + z * ceilDiv d.nx fac * ceilDiv d.ny fac
      = x + y * ceilDiv d.nx fac + z * (ceilDiv d.nx fac * ceilDiv d.ny fac) := by ring
  rw [hidx, h]

/-- `Math.ceil` of `0 / f` is 0 for positive `f`. -/
theorem ceilDiv_zero (f : Nat) (hf : 1 ≤ f) : ceilDiv 0 f = 0 := by
  rw [ceilDiv]
  exact Nat.div_eq_of_lt (by omega)

/-- Every entry of the downsampled buffer is literally a source sample,
provided the source buffer has exactly `nx*ny*nz` entries. -/
theorem downsample3D_mem_source (data : List Nat) (d : Dims3) (fac : Nat)
    (hfac : 1 ≤ fac) (hlen : data.length = d.nx * d.ny * d.nz) :
    ∀ w ∈ (downsample3D data d fac).1, w ∈ data := by
  intro w hw
  unfold downsample3D at hw
  simp only [List.mem_flatMap, List.mem_map, List.mem_range] at hw
  obtain ⟨z, hz, y, hy, x, hx, hw⟩ := hw
  have hnx : 1 ≤ d.nx := by
    by_contra hn
    have h0 := ceilDiv_zero fac hfac
    have h0' : d.nx = 0 := by omega
    rw [h0'] at hx
    omega
  have hny : 1 ≤ d.ny := by
    by_contra hn
    have h0 := ceilDiv_zero fac hfac
    have h0' : d.ny = 0 := by omega
    rw [h0'] at hy
    omega
  have hnz : 1 ≤ d.nz := by
    by_contra hn
    have h0 := ceilDiv_zero fac hfac
    have h0' : d.nz = 0 := by omega
    rw [h0'] at hz
    omega
  obtain ⟨a, ha⟩ : ∃ a, d.nx = a + 1 := ⟨d.nx - 1, by omega⟩
  obtain ⟨b, hb⟩ : ∃ b, d.ny = b + 1 := ⟨d.ny - 1, by omega⟩
  obtain ⟨c, hc⟩ : ∃ c, d.nz = c + 1 := ⟨d.nz - 1, by omega⟩
  have hix : min (x * fac) (d.nx - 1) ≤ a := by omega
  have hiy : min (y * fac) (d.ny - 1) ≤ b := by omega
  have hiz : min (z * fac) (d.nz - 1) ≤ c := by omega
  have hidx : min (x * fac) (d.nx - 1) + min (y * fac) (d.ny - 1) * d.nx
      + min (z * fac) (d.nz - 1) * d.nx * d.ny < data.length := by
    have hb1 : min (y * fac) (d.ny - 1) * d.nx ≤ b * (a + 1) := by
      rw [ha]
      exact Nat.mul_le_mul hiy (le_refl _)
    have hc1 : min (z * fac) (d.nz - 1) * d.nx * d.ny ≤ c * (a + 1) * (b + 1) := by
      rw [ha, hb]
      exact Nat.mul_le_mul (Nat.mul_le_mul hiz (le_refl _)) (le_refl _)
    have hkey : a + b * (a + 1) + c * (a + 1) * (b + 1) + 1 = (a + 1) * (b + 1) * (c + 1) := by
      ring
    have hlen' : data.length = (a + 1) * (b + 1) * (c + 1) := by rw [hlen, ha, hb, hc]
    linarith
  rw [← hw, List.getD_eq_getElem _ _ hidx]
  exact List.getElem_mem _

/-- **C3.** For every voxel field, the half-resolution tier has dims
`(ceil(nx/2), ceil(ny/2), ceil(nz/2))` and spacing `(2sx, 2sy, 2sz)`,
the quarter-resolution tier has dims `(ceil(nx/4), ceil(ny/4),
ceil(nz/4))` and spacing `(4sx, 4sy, 4sz)`, and every output voxel at
`(x,y,z)` of a factor-`f ∈ {2,4}` downsample equals the source voxel at
per-axis index `min (outIndex * f) (srcDim - 1)` (nearest neighbor, no
averaging). -/
theorem claim_C3_pyramid_dims_spacing_nearest (data : List Nat) (d : Dims3) (s : Spacing3) :
    ((loadMultiResVolumeData data d s).halfRes.dims
        = ⟨ceilDiv d.nx 2, ceilDiv d.ny 2, ceilDiv d.nz 2⟩
      ∧ (loadMultiResVolumeData data d s).halfRes.spacing
        = ⟨s.sx * 2, s.sy * 2, s.sz * 2⟩
      ∧ (loadMultiResVolumeData data d s).quarterRes.dims
        = ⟨ceilDiv d.nx 4, ceilDiv d.ny 4, ceilDiv d.nz 4⟩
      ∧ (loadMultiResVolumeData data d s).quarterRes.spacing
        = ⟨s.sx * 4, s.sy * 4, s.sz * 4⟩)
    ∧ ∀ fac ∈ ({2, 4} : Set Nat), ∀ x y z : Nat,
        x < ceilDiv d.nx fac → y < ceilDiv d.ny fac → z < ceilDiv d.nz fac →
        voxelAt (downsample3D data d fac).1 (downsample3D data d fac).2 x y z
          = voxelAt data d (min (x * fac) (d.nx - 1)) (min (y * fac) (d.ny - 1))
              (min (z * fac) (d.nz - 1)) := by
  refine ⟨⟨rfl, rfl, rfl, rfl⟩, ?_⟩
  intro fac _ x y z hx hy hz
  exact downsample3D_voxelAt data d fac x y z hx hy hz

/-- **C3 witness**: concrete 3×3×2 field, half tier dims `(2,2,1)`,
spacing doubled, and the voxel at output `(1,1,0)` is the source voxel
at `(2,2,0)`. -/
theorem claim_C3_pyramid_dims_spacing_nearest_witness :
    (loadMultiResVolumeData [10, 11, 12, 13, 14, 15, 16, 17, 18,
        20, 21, 22, 23, 24, 25, 26, 27, 28] ⟨3, 3, 2⟩ ⟨1, 1, 1⟩).halfRes.dims = ⟨2, 2, 1⟩
    ∧ (loadMultiResVolumeData [10, 11, 12, 13, 14, 15, 16, 17, 18,
        20, 21, 22, 23, 24, 25, 26, 27, 28] ⟨3, 3, 2⟩ ⟨1, 1, 1⟩).halfRes.spacing = ⟨2, 2, 2⟩
    ∧ voxelAt (downsample3D [10, 11, 12, 13, 14, 15, 16, 17, 18,
        20, 21, 22, 23, 24, 25, 26, 27, 28] ⟨3, 3, 2⟩ 2).1
        (downsample3D [10, 11, 12, 13, 14, 15, 16, 17, 18,
          20, 21, 22, 23, 24, 25, 26, 27, 28] ⟨3, 3, 2⟩ 2).2 1 1 0
      = voxelAt [10, 11, 12, 13, 14, 15, 16, 17, 18,
          20, 21, 22, 23, 24, 25, 26, 27, 28] ⟨3, 3, 2⟩ 2 2 0 := by
  have h := claim_C3_pyramid_dims_spacing_nearest
    [10, 11, 12, 13, 14, 15, 16, 17, 18, 20, 21, 22, 23, 24, 25, 26, 27, 28] ⟨3, 3, 2⟩ ⟨1, 1, 1⟩
  refine ⟨h.1.1, ?_, ?_⟩
  · rw [h.1.2.1]
    simp only [Spacing3.mk.injEq]
    norm_num
  · have h3 := h.2 2 (by simp) 1 1 0 (by decide) (by decide) (by decide)
    exact h3.trans (by decide)

/-- **C7 counterexample**: input of length 1 with declared dims
`(2,1,1)` (so length ≠ nx·ny·nz); the builder does not fail — it
returns a complete three-tier pyramid, with no validation anywhere. -/
theorem claim_C7_counterexample :
    ([5] : List Nat).length ≠ 2 * 1 * 1
    ∧ (loadMultiResVolumeData [5] ⟨2, 1, 1⟩ ⟨1, 1, 1⟩).halfRes.data = [5]
    ∧ (loadMultiResVolumeData [5] ⟨2, 1, 1⟩ ⟨1, 1, 1⟩).halfRes.dims = ⟨1, 1, 1⟩
    ∧ (loadMultiResVolumeData [5] ⟨2, 1, 1⟩ ⟨1, 1, 1⟩).halfRes.spacing = ⟨2, 2, 2⟩
    ∧ (loadMultiResVolumeData [5] ⟨2, 1, 1⟩ ⟨1, 1, 1⟩).quarterRes.data = [5]
    ∧ (loadMultiResVolumeData [5] ⟨2, 1, 1⟩ ⟨1, 1, 1⟩).quarterRes.dims = ⟨1, 1, 1⟩ := by
  refine ⟨by decide, by decide, by decide, ?_, by decide, by decide⟩
  show Spacing3.mk (1 * 2) (1 * 2) (1 * 2) = ⟨2, 2, 2⟩
  simp only [Spacing3.mk.injEq]
  norm_num

/-- **C7 amended**: pyramid construction performs no length validation
and cannot fail: for every input voxel array, of any length, it
produces a pyramid whose half and quarter tiers are fully populated at
the expected `ceil` dimensions (out-of-range source reads contribute
voxel value 0, as for a JavaScript typed array). -/
theorem claim_C7_amended_no_validation (data : List Nat) (d : Dims3) (s : Spacing3) :
    ((loadMultiResVolumeData data d s).halfRes.data).length
        = ceilDiv d.nx 2 * ceilDiv d.ny 2 * ceilDiv d.nz 2
    ∧ ((loadMultiResVolumeData data d s).halfRes.dims
        = ⟨ceilDiv d.nx 2, ceilDiv d.ny 2, ceilDiv d.nz 2⟩)
    ∧ ((loadMultiResVolumeData data d s).quarterRes.data).length
        = ceilDiv d.nx 4 * ceilDiv d.ny 4 * ceilDiv d.nz 4
    ∧ ((loadMultiResVolumeData data d s).quarterRes.dims
        = ⟨ceilDiv d.nx 4, ceilDiv d.ny 4, ceilDiv d.nz 4⟩) := by
  have hlen : ∀ fac : Nat, (downsample3D data d fac).1.length
      = ceilDiv d.nx fac * ceilDiv d.ny fac * ceilDiv d.nz fac := by
    intro fac
    unfold downsample3D
    simp only
    have houter := length_bind_const (List.range (ceilDiv d.nz fac))
      (fun z => (List.range (ceilDiv d.ny fac)).flatMap fun y =>
        (List.range (ceilDiv d.nx fac)).map fun x =>
          data.getD (min (x * fac) (d.nx - 1) + min (y * fac) (d.ny - 1) * d.nx
            + min (z * fac) (d.nz - 1) * d.nx * d.ny) 0)
      (ceilDiv d.ny fac * ceilDiv d.nx fac) ?_
    · rw [houter]
      simp only [List.length_range]
      ring
    · intro a _
      have h2 := length_bind_const (List.range (ceilDiv d.ny fac))
        (fun y => (List.range (ceilDiv d.nx fac)).map fun x =>
          data.getD (min (x * fac) (d.nx - 1) + min (y * fac) (d.ny - 1) * d.nx
            + min (a * fac) (d.nz - 1) * d.nx * d.ny) 0) (ceilDiv d.nx fac) (fun b _ => by simp)
      simpa using h2
  exact ⟨hlen 2, rfl, hlen 4, rfl⟩

/-- **C9.** Downsampling a constant field (every voxel equal to `v`)
at factor 2 and at factor 4 yields constant fields with the same value:
all three tiers of a constant field are constant with value `v`. -/
theorem claim_C9_constant_downsample (data : List Nat) (d : Dims3) (s : Spacing3) (v : Nat)
    (hlen : data.length = d.nx * d.ny * d.nz)
    (hconst : ∀ w ∈ data, w = v) :
    (∀ w ∈ (loadMultiResVolumeData data d s).fullRes.data, w = v)
    ∧ (∀ w ∈ (loadMultiResVolumeData data d s).halfRes.data, w = v)
    ∧ (∀ w ∈ (loadMultiResVolumeData data d s).quarterRes.data, w = v) := by
  refine ⟨hconst, ?_, ?_⟩
  · intro w hw
    exact hconst w (downsample3D_mem_source data d 2 (by omega) hlen w hw)
  · intro w hw
    exact hconst w (downsample3D_mem_source data d 4 (by omega) hlen w hw)

/-- **C9 witness**: the constant 4×3×2 field of value 7 downsamples to
constant tiers of value 7. -/
theorem claim_C9_constant_downsample_witness :
    (∀ w ∈ (loadMultiResVolumeData (List.replicate 24 7) ⟨4, 3, 2⟩ ⟨1, 1, 1⟩).fullRes.data, w = 7)
    ∧ (∀ w ∈ (loadMultiResVolumeData (List.replicate 24 7) ⟨4, 3, 2⟩ ⟨1, 1, 1⟩).halfRes.data, w = 7)
    ∧ (∀ w ∈ (loadMultiResVolumeData (List.replicate 24 7) ⟨4, 3, 2⟩ ⟨1, 1, 1⟩).quarterRes.data,
        w = 7) :=
  claim_C9_constant_downsample (List.replicate 24 7) ⟨4, 3, 2⟩ ⟨1, 1, 1⟩ 7
    (by decide) (by decide)

/-! ## Render throttler (`RenderThrottler`) -/

/-- `TARGET_FPS = 30`. -/
def TARGET_FPS : ℚ := 30

/-- `FRAME_TIME_MS = 1000 / TARGET_FPS`. -/
def FRAME_TIME_MS : ℚ := 1000 / TARGET_FPS

/-- State of a `RenderThrottler`.  `renderCount` counts calls of the
wrapped `renderFn`; `rafRequests` counts `requestAnimationFrame` calls;
`rafScheduled` records whether a scheduled frame callback is
outstanding. -/
structure ThrottlerState where
  lastRenderTime : ℚ
  pendingRender : Bool
  rafScheduled : Bool
  renderCount : Nat
  rafRequests : Nat
deriving DecidableEq

/-- Embedding of `RenderThrottler.requestRender`, with the call time
`now` passed explicitly. -/
def requestRender (now : ℚ) (s : ThrottlerState) : ThrottlerState :=
  if s.pendingRender then s
  else if FRAME_TIME_MS ≤ now - s.lastRenderTime then
    { s with lastRenderTime := now, renderCount := s.renderCount + 1 }
  else
    { s with pendingRender := true, rafScheduled := true,
             rafRequests := s.rafRequests + 1 }

/-- The deferred frame callback scheduled by `requestRender` firing at
time `now`. -/
def fireFrame (now : ℚ) (s : ThrottlerState) : ThrottlerState :=
  if s.rafScheduled then
    { s with pendingRender := false, rafScheduled := false,
             lastRenderTime := now, renderCount := s.renderCount + 1 }
  else s

/-- Embedding of `RenderThrottler.forceRender`. -/
def forceRender (now : ℚ) (s : ThrottlerState) : ThrottlerState :=
  { s with lastRenderTime := now, renderCount := s.renderCount + 1 }

/-- Once a frame is pending, further `requestRender` calls are all
absorbed without changing anything. -/
theorem requestRender_absorbed (ts : List ℚ) (s : ThrottlerState)
    (hp : s.pendingRender = true) :
    ts.foldl (fun st t => requestRender t st) s = s := by
  induction ts with
  | nil => rfl
  | cons t ts ih =>
      have h1 : requestRender t s = s := by
        rw [requestRender, hp]
        simp
      rw [List.foldl_cons, h1]
      exact ih

/-- **C4.** For every `N ≥ 1` (a nonempty list of call times), calling
`requestRender` `N` times while within one frame budget of the last
render (frame budget `= 1000/30` ms) triggers exactly one underlying
redraw: the calls themselves render nothing, exactly one deferred frame
is scheduled (`rafRequests` grows by exactly 1, so no backlog grows),
at most one frame is pending, and the single scheduled frame tick then
performs the one redraw. -/
theorem claim_C4_render_coalescing (ts : List ℚ) (s : ThrottlerState) (tN : ℚ)
    (hne : ts ≠ [])
    (hpend : s.pendingRender = false)
    (hin : ∀ t ∈ ts, t - s.lastRenderTime < FRAME_TIME_MS) :
    FRAME_TIME_MS = 1000 / 30
    ∧ (ts.foldl (fun st t => requestRender t st) s).renderCount = s.renderCount
    ∧ (ts.foldl (fun st t => requestRender t st) s).pendingRender = true
    ∧ (ts.foldl (fun st t => requestRender t st) s).rafRequests = s.rafRequests + 1
    ∧ (fireFrame tN (ts.foldl (fun st t => requestRender t st) s)).renderCount
        = s.renderCount + 1 := by
  obtain ⟨t0, ts', rfl⟩ : ∃ t0 ts', ts = t0 :: ts' := by
    cases ts with
    | nil => exact absurd rfl hne
    | cons a l => exact ⟨a, l, rfl⟩
  have hlt := hin t0 (by simp)
  have h0 : requestRender t0 s
      = { s with pendingRender := true, rafScheduled := true,
                 rafRequests := s.rafRequests + 1 } := by
    rw [requestRender, hpend]
    simp only [Bool.false_eq_true, if_false]
    rw [if_neg (by linarith)]
  have hfold : (t0 :: ts').foldl (fun st t => requestRender t st) s
      = { s with pendingRender := true, rafScheduled := true,
                 rafRequests := s.rafRequests + 1 } := by
    rw [List.foldl_cons, h0]
    exact requestRender_absorbed ts' _ rfl
  refine ⟨rfl, ?_, ?_, ?_, ?_⟩
  · rw [hfold]
  · rw [hfold]
  · rw [hfold]
  · rw [hfold, fireFrame]
    simp

/-- **C4 witness**: two calls at `t = 10` and `t = 20` ms after a render
at `t = 0` produce no immediate render, one scheduled frame, and
exactly one redraw when the frame fires. -/
theorem claim_C4_render_coalescing_witness :
    (([10, 20] : List ℚ).foldl (fun st t => requestRender t st)
        ⟨0, false, false, 0, 0⟩).renderCount = 0
    ∧ (([10, 20] : List ℚ).foldl (fun st t => requestRender t st)
        ⟨0, false, false, 0, 0⟩).pendingRender = true
    ∧ (([10, 20] : List ℚ).foldl (fun st t => requestRender t st)
        ⟨0, false, false, 0, 0⟩).rafRequests = 1
    ∧ (fireFrame 25 (([10, 20] : List ℚ).foldl (fun st t => requestRender t st)
        ⟨0, false, false, 0, 0⟩)).renderCount = 1 := by
  have h := claim_C4_render_coalescing [10, 20] ⟨0, false, false, 0, 0⟩ 25
    (by simp) rfl ?_
  · exact ⟨h.2.1, h.2.2.1, h.2.2.2.1, h.2.2.2.2⟩
  · intro t ht
    rw [FRAME_TIME_MS, TARGET_FPS]
    fin_cases ht <;> norm_num

/-! ## Smooth zoom handler (`SmoothZoomHandler`) -/

/-- `ZOOM_SMOOTHING = 0.15`. -/
def ZOOM_SMOOTHING : ℚ := 0.15

/-- `MAX_ZOOM_DELTA = 0.08`. -/
def MAX_ZOOM_DELTA : ℚ := 0.08

/-- State of a `SmoothZoomHandler`.  `startCount`/`endCount` count the
`onInteractionStart`/`onInteractionEnd` notifications; `rafScheduled`
records an outstanding scheduled `animate` callback. -/
structure ZoomState where
  accumulatedDelta : ℚ
  isAnimating : Bool
  rafScheduled : Bool
  startCount : Nat
  endCount : Nat
deriving DecidableEq

/-- One execution of the body of `SmoothZoomHandler.animate` (the
camera-zoom application and the render request are external effects not
tracked here). -/
def animateBody (s : ZoomState) : ZoomState :=
  if |s.accumulatedDelta| < 0.001 then
    { s with isAnimating := false, endCount := s.endCount + 1 }
  else
    { s with isAnimating := true,
             accumulatedDelta :=
               s.accumulatedDelta - s.accumulatedDelta * ZOOM_SMOOTHING,
             rafScheduled := true }

/-- One frame tick: runs the scheduled `animate` callback, if any. -/
def zoomTick (s : ZoomState) : ZoomState :=
  if s.rafScheduled then animateBody { s with rafScheduled := false } else s

/-- `n` successive frame ticks. -/
def runTicks : Nat → ZoomState → ZoomState
  | 0, s => s
  | n + 1, s => runTicks n (zoomTick s)

/-- Embedding of `SmoothZoomHandler.addDelta`: notify interaction
start, accumulate the clamped scaled delta, and if not animating run
`animate` once synchronously. -/
def addDelta (delta : ℚ) (s : ZoomState) : ZoomState :=
  let s1 : ZoomState :=
    { s with startCount := s.startCount + 1,
             accumulatedDelta := s.accumulatedDelta
               + max (-MAX_ZOOM_DELTA) (min MAX_ZOOM_DELTA (delta * 0.001)) }
  if s1.isAnimating then s1 else animateBody s1

/-- A freshly constructed `SmoothZoomHandler`. -/
def initZoom : ZoomState := ⟨0, false, false, 0, 0⟩

theorem zoomTick_stable (s : ZoomState) (h : s.rafScheduled = false) :
    zoomTick s = s := by
  rw [zoomTick, h]
  simp

theorem runTicks_stable (n : Nat) (s : ZoomState) (h : s.rafScheduled = false) :
    runTicks n s = s := by
  induction n with
  | zero => rfl
  | succ m ih =>
      show runTicks m (zoomTick s) = s
      rw [zoomTick_stable s h]
      exact ih

theorem runTicks_add (a b : Nat) (s : ZoomState) :
    runTicks (a + b) s = runTicks b (runTicks a s) := by
  induction a generalizing s with
  | zero =>
      rw [Nat.zero_add]
      rfl
  | succ m ih =>
      have h1 : m + 1 + b = (m + b) + 1 := by omega
      rw [h1]
      show runTicks (m + b) (zoomTick s) = runTicks b (runTicks (m + 1) s)
      rw [ih (zoomTick s)]
      rfl

/-- A scheduled `animate` callback whose accumulator is already below
epsilon terminates: it fires the end notification and does not
reschedule. -/
theorem zoomTick_terminal (s : ZoomState) (hraf : s.rafScheduled = true)
    (habs : |s.accumulatedDelta| < 0.001) :
    zoomTick s = ⟨s.accumulatedDelta, false, false, s.startCount, s.endCount + 1⟩ := by
  obtain ⟨a, b, c, d, e⟩ := s
  replace hraf : c = true := hraf
  replace habs : |a| < 0.001 := habs
  subst hraf
  simp [zoomTick, animateBody, habs]

/-- A scheduled `animate` callback whose accumulator is at or above
epsilon applies one smoothing step and reschedules. -/
theorem zoomTick_decay (s : ZoomState) (hraf : s.rafScheduled = true)
    (habs : ¬ |s.accumulatedDelta| < 0.001) :
    zoomTick s = ⟨s.accumulatedDelta - s.accumulatedDelta * ZOOM_SMOOTHING,
      true, true, s.startCount, s.endCount⟩ := by
  obtain ⟨a, b, c, d, e⟩ := s
  replace hraf : c = true := hraf
  replace habs : ¬ |a| < 0.001 := habs
  subst hraf
  simp [zoomTick, animateBody, habs]

/-- After `n` ticks from a scheduled state with no end notification
yet, the loop has either terminated (exactly one end notification,
nothing scheduled any more) or is still running with the accumulator
decayed by the factor `(17/20)^n`. -/
theorem runTicks_progress (n : Nat) (s : ZoomState)
    (hraf : s.rafScheduled = true) (hend : s.endCount = 0) :
    (runTicks n s).startCount = s.startCount
    ∧ (((runTicks n s).endCount = 1 ∧ (runTicks n s).rafScheduled = false)
      ∨ ((runTicks n s).endCount = 0 ∧ (runTicks n s).rafScheduled = true
        ∧ (runTicks n s).accumulatedDelta = s.accumulatedDelta * (17/20) ^ n)) := by
  induction n generalizing s with
  | zero =>
      refine ⟨rfl, Or.inr ⟨hend, hraf, ?_⟩⟩
      show s.accumulatedDelta = s.accumulatedDelta * (17 / 20) ^ 0
      rw [pow_zero, mul_one]
  | succ m ih =>
      by_cases hc : |s.accumulatedDelta| < 0.001
      · have hstep : runTicks (m + 1) s
            = runTicks m (⟨s.accumulatedDelta, false, false, s.startCount,
                s.endCount + 1⟩ : ZoomState) := by
          show runTicks m (zoomTick s) = _
          rw [zoomTick_terminal s hraf hc]
        rw [hstep, runTicks_stable m _ rfl]
        exact ⟨rfl, Or.inl ⟨by rw [hend], rfl⟩⟩
      · have hstep : runTicks (m + 1) s
            = runTicks m (⟨s.accumulatedDelta - s.accumulatedDelta * ZOOM_SMOOTHING,
                true, true, s.startCount, s.endCount⟩ : ZoomState) := by
          show runTicks m (zoomTick s) = _
          rw [zoomTick_decay s hraf hc]
        rw [hstep]
        obtain ⟨hst, hdisj⟩ := ih ⟨s.accumulatedDelta - s.accumulatedDelta * ZOOM_SMOOTHING,
          true, true, s.startCount, s.endCount⟩ rfl (by exact hend)
        refine ⟨hst, ?_⟩
        rcases hdisj with hdone | ⟨he, hr, hacc⟩
        · exact Or.inl hdone
        · refine Or.inr ⟨he, hr, ?_⟩
          rw [hacc]
          show (s.accumulatedDelta - s.accumulatedDelta * ZOOM_SMOOTHING) * (17/20) ^ m
              = s.accumulatedDelta * (17/20) ^ (m + 1)
          rw [ZOOM_SMOOTHING]
          ring

/-- The clamped per-call wheel contribution never exceeds the maximum
step `MAX_ZOOM_DELTA` in magnitude. -/
theorem clamp_abs_le (v : ℚ) :
    |max (-MAX_ZOOM_DELTA) (min MAX_ZOOM_DELTA v)| ≤ MAX_ZOOM_DELTA := by
  rw [abs_le]
  constructor
  · exact le_max_left _ _
  · exact max_le (by rw [MAX_ZOOM_DELTA]; norm_num) (min_le_left _ _)

/-- **C5.** A single `addDelta d` call on a fresh handler, followed by
no further input, terminates within a bounded number of frame ticks (30
suffice for every `d`): the accumulator, clamped on entry to at most
`MAX_ZOOM_DELTA`, decays by the fixed smoothing fraction
`ZOOM_SMOOTHING = 0.15` each tick until it drops below the `0.001`
epsilon, at which point nothing is rescheduled and the
interaction-ended notification has fired exactly once (the start
notification also exactly once); every later tick changes nothing. -/
theorem claim_C5_zoom_terminates (d : ℚ) :
    (runTicks 30 (addDelta d initZoom)).endCount = 1
    ∧ (runTicks 30 (addDelta d initZoom)).rafScheduled = false
    ∧ (runTicks 30 (addDelta d initZoom)).startCount = 1
    ∧ ∀ m : Nat, runTicks m (runTicks 30 (addDelta d initZoom))
        = runTicks 30 (addDelta d initZoom) := by
  have hcabs : |max (-MAX_ZOOM_DELTA) (min MAX_ZOOM_DELTA (d * 0.001))| ≤ MAX_ZOOM_DELTA :=
    clamp_abs_le (d * 0.001)
  set c : ℚ := max (-MAX_ZOOM_DELTA) (min MAX_ZOOM_DELTA (d * 0.001)) with hcdef
  have hstart : addDelta d initZoom = animateBody ⟨c, false, false, 1, 0⟩ := by
    simp [addDelta, initZoom]
  by_cases hsmall : |c| < 0.001
  · have hdone : addDelta d initZoom = ⟨c, false, false, 1, 1⟩ := by
      rw [hstart]
      simp [animateBody, hsmall]
    have hfin : runTicks 30 (addDelta d initZoom) = ⟨c, false, false, 1, 1⟩ := by
      rw [hdone]
      exact runTicks_stable 30 _ rfl
    rw [hfin]
    exact ⟨rfl, rfl, rfl, fun m => runTicks_stable m _ rfl⟩
  · have hrun : addDelta d initZoom
        = ⟨c - c * ZOOM_SMOOTHING, true, true, 1, 0⟩ := by
      rw [hstart]
      simp [animateBody, hsmall]
    set t : ZoomState := ⟨c - c * ZOOM_SMOOTHING, true, true, 1, 0⟩ with htdef
    have h29 := runTicks_progress 29 t rfl rfl
    have h30 : (30 : Nat) = 29 + 1 := by norm_num
    have hsplit : runTicks 30 (addDelta d initZoom) = runTicks 1 (runTicks 29 t) := by
      rw [hrun, h30, runTicks_add]
    rcases h29.2 with ⟨he, hr⟩ | ⟨he, hr, hacc⟩
    · have hfin : runTicks 30 (addDelta d initZoom) = runTicks 29 t := by
        rw [hsplit]
        exact runTicks_stable 1 _ hr
      rw [hfin]
      refine ⟨he, hr, ?_, fun m => runTicks_stable m _ hr⟩
      rw [h29.1]
    · have habs : |(runTicks 29 t).accumulatedDelta| < 0.001 := by
        rw [hacc]
        have ht1 : t.accumulatedDelta = c * (1 - ZOOM_SMOOTHING) := by
          show c - c * ZOOM_SMOOTHING = c * (1 - ZOOM_SMOOTHING)
          ring
        rw [ht1, abs_mul, abs_mul, abs_pow]
        have h85 : |1 - ZOOM_SMOOTHING| = 17/20 := by
          rw [ZOOM_SMOOTHING]
          norm_num
        have h1720 : |(17/20 : ℚ)| = 17/20 := by norm_num
        rw [h85, h1720]
        calc |c| * (17/20) * (17/20 : ℚ) ^ 29
            ≤ MAX_ZOOM_DELTA * (17/20) * (17/20 : ℚ) ^ 29 := by gcongr
          _ < 0.001 := by
              rw [MAX_ZOOM_DELTA]
              norm_num
      have hone : runTicks 1 (runTicks 29 t)
          = ⟨(runTicks 29 t).accumulatedDelta, false, false,
              (runTicks 29 t).startCount, (runTicks 29 t).endCount + 1⟩ := by
        show zoomTick (runTicks 29 t) = _
        exact zoomTick_terminal _ hr habs
      have hfin : runTicks 30 (addDelta d initZoom)
          = ⟨(runTicks 29 t).accumulatedDelta, false, false,
              (runTicks 29 t).startCount, (runTicks 29 t).endCount + 1⟩ := by
        rw [hsplit, hone]
      rw [hfin]
      refine ⟨?_, rfl, ?_, fun m => runTicks_stable m _ rfl⟩
      · show (runTicks 29 t).endCount + 1 = 1
        rw [he]
      · show (runTicks 29 t).startCount = 1
        rw [h29.1]

/-! ## LOD levels, per-system state (`TripleLODSystem`, `setLODLevel`) -/

/-- The three LOD levels (`LODLevel`). -/
inductive LODLevel where
  | fast
  | normal
  | quality
deriving DecidableEq

/-- The two render modes (`RenderMode`). -/
inductive RenderMode where
  | performance
  | accuracy
deriving DecidableEq

/-- Volume-property interpolation type. -/
inductive InterpolationType where
  | linear
  | nearest
deriving DecidableEq

/-- The mutable state of one `TripleLODSystem` that `setLODLevel` and
the manager touch: the currently displayed tier and the shared
property's shading knobs.  (The three mappers and tier buffers are
fixed at construction and are not re-examined by the state machine.) -/
structure SysState where
  currentLOD : LODLevel
  isNearest : Bool
  shade : Bool
  ambient : ℚ
  diffuse : ℚ
  specular : ℚ
  interpolation : InterpolationType
deriving DecidableEq

/-- Embedding of `createTripleLODSystem`'s initial property state:
starts on the quality mapper with full shading. -/
def createTripleLODSystem (isNearest : Bool) : SysState :=
  { currentLOD := .quality, isNearest := isNearest, shade := true,
    ambient := 0.15, diffuse := 0.7, specular := 0.25,
    interpolation := if isNearest then .nearest else .linear }

/-- Embedding of the free function `setLODLevel(system, level)`. -/
def setLODLevel (s : SysState) (level : LODLevel) : SysState :=
  if s.currentLOD = level then s
  else
    match level with
    | .fast =>
        { s with currentLOD := .fast, shade := false,
                 interpolation := .nearest,
                 ambient := 1, diffuse := 0, specular := 0 }
    | .normal =>
        { s with currentLOD := .normal, shade := true,
                 interpolation := if s.isNearest then .nearest else .linear,
                 ambient := 0.2, diffuse := 0.6, specular := 0.2 }
    | .quality =>
        { s with currentLOD := .quality, shade := true,
                 interpolation := if s.isNearest then .nearest else .linear,
                 ambient := 0.15, diffuse := 0.7, specular := 0.25 }

/-- The performance-mode property settings the manager applies
(`setShade(false); setAmbient(0.8); setDiffuse(0.2); setSpecular(0)`). -/
def perfShading (s : SysState) : SysState :=
  { s with shade := false, ambient := 0.8, diffuse := 0.2, specular := 0 }

/-- The full-quality property settings the manager restores in accuracy
mode (`setShade(true); setAmbient(0.15); setDiffuse(0.7);
setSpecular(0.25)`). -/
def qualityShading (s : SysState) : SysState :=
  { s with shade := true, ambient := 0.15, diffuse := 0.7, specular := 0.25 }

/-! ## LOD state manager (`LODStateManager`) -/

/-- `LOD_TIMEOUT.toNormal` (ms). -/
def lodTimeoutToNormal : Nat := 100

/-- `LOD_TIMEOUT.toQuality` (ms). -/
def lodTimeoutToQuality : Nat := 300

/-- Which callback a pending `normalTimeout` runs: the performance
variant (half-res, keep flat shading, terminal) or the accuracy variant
(half-res, then chain the quality timer). -/
inductive NormalTimerKind where
  | perfNormal
  | accNormal
deriving DecidableEq

/-- State of a `LODStateManager` together with its registered systems.
Pending timers carry their scheduled delay in ms. -/
structure MgrState where
  currentLevel : LODLevel
  isInteracting : Bool
  renderMode : RenderMode
  normalTimeout : Option (NormalTimerKind × Nat)
  qualityTimeout : Option Nat
  systems : List SysState
  renderCount : Nat
deriving DecidableEq

/-- Embedding of `LODStateManager.clearTimeouts`. -/
def clearTimeouts (m : MgrState) : MgrState :=
  { m with normalTimeout := none, qualityTimeout := none }

/-- Embedding of the private `LODStateManager.setLevel`: no-op when the
level is unchanged, otherwise applies `setLODLevel` to every registered
system. -/
def mgrSetLevel (m : MgrState) (level : LODLevel) : MgrState :=
  if m.currentLevel = level then m
  else { m with currentLevel := level,
                systems := m.systems.map (fun s => setLODLevel s level) }

/-- Embedding of `LODStateManager.setRenderMode`. -/
def setRenderMode (m : MgrState) (mode : RenderMode) : MgrState :=
  let m1 : MgrState := { m with renderMode := mode }
  match mode with
  | .performance =>
      let m2 := clearTimeouts m1
      if m2.isInteracting then m2
      else
        let m3 := mgrSetLevel m2 .normal
        { m3 with systems := m3.systems.map perfShading,
                  renderCount := m3.renderCount + 1 }
  | .accuracy =>
      if m1.isInteracting then m1
      else
        let m3 := mgrSetLevel m1 .quality
        { m3 with systems := m3.systems.map qualityShading,
                  renderCount := m3.renderCount + 1 }

/-- Embedding of `LODStateManager.startInteraction`. -/
def startInteraction (m : MgrState) : MgrState :=
  if m.isInteracting then m
  else mgrSetLevel (clearTimeouts { m with isInteracting := true }) .fast

/-- Embedding of `LODStateManager.endInteraction`: schedules the
debounce timer appropriate to the render mode. -/
def endInteraction (m : MgrState) : MgrState :=
  if m.isInteracting then
    let m1 : MgrState := { m with isInteracting := false }
    match m1.renderMode with
    | .performance =>
        { m1 with normalTimeout := some (.perfNormal, lodTimeoutToNormal) }
    | .accuracy =>
        { m1 with normalTimeout := some (.accNormal, lodTimeoutToNormal) }
  else m

/-- The pending `normalTimeout` callback firing. -/
def fireNormalTimeout (m : MgrState) : MgrState :=
  match m.normalTimeout with
  | none => m
  | some (.perfNormal, _) =>
      let m1 := mgrSetLevel { m with normalTimeout := none } .normal
      { m1 with systems := m1.systems.map perfShading,
                renderCount := m1.renderCount + 1 }
  | some (.accNormal, _) =>
      let m1 := mgrSetLevel { m with normalTimeout := none } .normal
      { m1 with qualityTimeout := some lodTimeoutToQuality,
                renderCount := m1.renderCount + 1 }

/-- The pending `qualityTimeout` callback firing. -/
def fireQualityTimeout (m : MgrState) : MgrState :=
  match m.qualityTimeout with
  | none => m
  | some _ =>
      let m1 := mgrSetLevel { m with qualityTimeout := none } .quality
      { m1 with renderCount := m1.renderCount + 1 }

/-- Embedding of `LODStateManager.addSystem`: a late-registered system
(fresh from `createTripleLODSystem`) gets the current mode settings. -/
def addSystem (m : MgrState) (isNearest : Bool) : MgrState :=
  let sys := createTripleLODSystem isNearest
  if m.renderMode = .performance ∧ m.isInteracting = false then
    { m with systems := m.systems ++ [perfShading (setLODLevel sys .normal)] }
  else
    { m with systems := m.systems ++ [setLODLevel sys m.currentLevel] }

/-- The manager events: the four public operations plus the two timer
callbacks firing. -/
inductive MgrOp where
  | startI
  | endI
  | setMode (mode : RenderMode)
  | add (isNearest : Bool)
  | tickNormal
  | tickQuality
deriving DecidableEq

def stepOp (m : MgrState) : MgrOp → MgrState
  | .startI => startInteraction m
  | .endI => endInteraction m
  | .setMode mode => setRenderMode m mode
  | .add b => addSystem m b
  | .tickNormal => fireNormalTimeout m
  | .tickQuality => fireQualityTimeout m

/-- The manager as constructed in `drawScan`: initial level `quality`,
accuracy mode, not interacting, no timers, one registered system (the
FLAIR anatomy volume, linear interpolation). -/
def initMgr : MgrState :=
  { currentLevel := .quality, isInteracting := false, renderMode := .accuracy,
    normalTimeout := none, qualityTimeout := none,
    systems := [createTripleLODSystem false], renderCount := 0 }

def runOps (m : MgrState) (ops : List MgrOp) : MgrState :=
  ops.foldl stepOp m

/-- A manager state reachable from construction by some event
sequence. -/
def Reachable (m : MgrState) : Prop :=
  ∃ ops : List MgrOp, runOps initMgr ops = m

/-! ### Basic facts about `setLODLevel` and `mgrSetLevel` -/

theorem setLODLevel_currentLOD (s : SysState) (level : LODLevel) :
    (setLODLevel s level).currentLOD = level := by
  rw [setLODLevel.eq_def]
  split
  · next h => exact h
  · cases level <;> rfl

theorem perfShading_currentLOD (s : SysState) :
    (perfShading s).currentLOD = s.currentLOD := rfl

theorem qualityShading_currentLOD (s : SysState) :
    (qualityShading s).currentLOD = s.currentLOD := rfl

theorem mgrSetLevel_eq_self (m : MgrState) (level : LODLevel)
    (h : m.currentLevel = level) : mgrSetLevel m level = m := by
  rw [mgrSetLevel, if_pos h]

theorem mgrSetLevel_map (m : MgrState) (level : LODLevel)
    (h : ¬ m.currentLevel = level) :
    mgrSetLevel m level
      = { m with currentLevel := level,
                 systems := m.systems.map (fun s => setLODLevel s level) } := by
  rw [mgrSetLevel, if_neg h]

theorem mgrSetLevel_currentLevel (m : MgrState) (level : LODLevel) :
    (mgrSetLevel m level).currentLevel = level := by
  by_cases h : m.currentLevel = level
  · rw [mgrSetLevel_eq_self m level h, h]
  · rw [mgrSetLevel_map m level h]

theorem mgrSetLevel_isInteracting (m : MgrState) (level : LODLevel) :
    (mgrSetLevel m level).isInteracting = m.isInteracting := by
  by_cases h : m.currentLevel = level
  · rw [mgrSetLevel_eq_self m level h]
  · rw [mgrSetLevel_map m level h]

theorem mgrSetLevel_renderMode (m : MgrState) (level : LODLevel) :
    (mgrSetLevel m level).renderMode = m.renderMode := by
  by_cases h : m.currentLevel = level
  · rw [mgrSetLevel_eq_self m level h]
  · rw [mgrSetLevel_map m level h]

theorem mgrSetLevel_normalTimeout (m : MgrState) (level : LODLevel) :
    (mgrSetLevel m level).normalTimeout = m.normalTimeout := by
  by_cases h : m.currentLevel = level
  · rw [mgrSetLevel_eq_self m level h]
  · rw [mgrSetLevel_map m level h]

theorem mgrSetLevel_qualityTimeout (m : MgrState) (level : LODLevel) :
    (mgrSetLevel m level).qualityTimeout = m.qualityTimeout := by
  by_cases h : m.currentLevel = level
  · rw [mgrSetLevel_eq_self m level h]
  · rw [mgrSetLevel_map m level h]

/-- The level-uniformity relation transported through a map that
preserves `currentLOD`. -/
theorem mem_map_shading_level {f : SysState → SysState}
    (hf : ∀ s, (f s).currentLOD = s.currentLOD)
    (l : List SysState) (lvl : LODLevel)
    (h : ∀ s ∈ l, s.currentLOD = lvl ∨ (lvl = .fast ∧ s.currentLOD = .normal)) :
    ∀ s ∈ l.map f, s.currentLOD = lvl ∨ (lvl = .fast ∧ s.currentLOD = .normal) := by
  intro s hs
  simp only [List.mem_map] at hs
  obtain ⟨s0, hs0, rfl⟩ := hs
  rcases h s0 hs0 with h1 | ⟨h1, h2⟩
  · exact Or.inl (by rw [hf s0, h1])
  · exact Or.inr ⟨h1, by rw [hf s0, h2]⟩

theorem mgrSetLevel_systems_level (m : MgrState) (level : LODLevel)
    (huni : ∀ s ∈ m.systems, s.currentLOD = m.currentLevel
      ∨ (m.currentLevel = .fast ∧ s.currentLOD = .normal)) :
    ∀ s ∈ (mgrSetLevel m level).systems, s.currentLOD = level
      ∨ (level = .fast ∧ s.currentLOD = .normal) := by
  by_cases h : m.currentLevel = level
  · rw [mgrSetLevel_eq_self m level h]
    intro s hs
    rcases huni s hs with h1 | ⟨h1, h2⟩
    · exact Or.inl (by rw [h1, h])
    · exact Or.inr ⟨by rw [← h]; exact h1, h2⟩
  · rw [mgrSetLevel_map m level h]
    intro s hs
    simp only [List.mem_map] at hs
    obtain ⟨s0, _, rfl⟩ := hs
    exact Or.inl (setLODLevel_currentLOD s0 level)

/-! ### The reachable-state invariant of the manager -/

/-- An accuracy-variant debounce timer is pending. -/
def accNormalPending (m : MgrState) : Prop :=
  ∃ k, m.normalTimeout = some (NormalTimerKind.accNormal, k)

/-- Invariant maintained by every manager operation:
while interacting the level is `fast` and no timers are pending; in
performance mode no accuracy-variant timer and no quality timer can be
pending and (when idle) the level is never `quality`; and every
registered system sits at the manager's level except that a system can
sit at `normal` while the manager is at `fast` (late registration in a
performance-mode debounce window). -/
structure MgrInv (m : MgrState) : Prop where
  interacting_fast : m.isInteracting = true → m.currentLevel = .fast
  interacting_noNormal : m.isInteracting = true → m.normalTimeout = none
  interacting_noQuality : m.isInteracting = true → m.qualityTimeout = none
  perf_noAcc : m.renderMode = .performance → ¬ accNormalPending m
  perf_noQuality : m.renderMode = .performance → m.qualityTimeout = none
  perf_level : m.renderMode = .performance → m.isInteracting = false →
    ¬ m.currentLevel = .quality
  systems_level : ∀ s ∈ m.systems, s.currentLOD = m.currentLevel
      ∨ (m.currentLevel = .fast ∧ s.currentLOD = .normal)

theorem initMgr_inv : MgrInv initMgr := by
  refine ⟨?_, ?_, ?_, ?_, ?_, ?_, ?_⟩
  · intro h
    simp [initMgr] at h
  · intro h
    simp [initMgr] at h
  · intro h
    simp [initMgr] at h
  · intro h
    simp [initMgr] at h
  · intro _
    rfl
  · intro h
    simp [initMgr] at h
  · intro s hs
    simp [initMgr, createTripleLODSystem] at hs
    rw [hs]
    exact Or.inl rfl

theorem startInteraction_inv (m : MgrState) (hm : MgrInv m) :
    MgrInv (startInteraction m) := by
  rw [startInteraction]
  split
  · exact hm
  · next hni =>
      set n : MgrState := clearTimeouts { m with isInteracting := true } with hn
      refine ⟨?_, ?_, ?_, ?_, ?_, ?_, ?_⟩
      · intro _
        exact mgrSetLevel_currentLevel n .fast
      · intro _
        rw [mgrSetLevel_normalTimeout]
        rfl
      · intro _
        rw [mgrSetLevel_qualityTimeout]
        rfl
      · rintro _ ⟨k, hk⟩
        rw [mgrSetLevel_normalTimeout] at hk
        simp [hn, clearTimeouts] at hk
      · intro _
        rw [mgrSetLevel_qualityTimeout]
        rfl
      · intro _ _
        rw [mgrSetLevel_currentLevel]
        simp
      · have hl := mgrSetLevel_currentLevel n .fast
        rw [hl]
        exact mgrSetLevel_systems_level n .fast hm.systems_level

theorem endInteraction_inv (m : MgrState) (hm : MgrInv m) :
    MgrInv (endInteraction m) := by
  rw [endInteraction]
  split
  · next hi =>
      dsimp only
      split
      · next hr =>
          replace hr : m.renderMode = RenderMode.performance := hr
          refine ⟨?_, ?_, ?_, ?_, ?_, ?_, ?_⟩
          · intro h
            simp at h
          · intro h
            simp at h
          · intro h
            simp at h
          · rintro _ ⟨k, hk⟩
            simp at hk
          · intro _
            exact hm.interacting_noQuality hi
          · intro _ _
            intro hq
            replace hq : m.currentLevel = LODLevel.quality := hq
            rw [hm.interacting_fast hi] at hq
            simp at hq
          · exact hm.systems_level
      · next hr =>
          replace hr : m.renderMode = RenderMode.accuracy := hr
          refine ⟨?_, ?_, ?_, ?_, ?_, ?_, ?_⟩
          · intro h
            simp at h
          · intro h
            simp at h
          · intro h
            simp at h
          · intro hp
            replace hp : m.renderMode = RenderMode.performance := hp
            rw [hr] at hp
            simp at hp
          · intro hp
            replace hp : m.renderMode = RenderMode.performance := hp
            rw [hr] at hp
            simp at hp
          · intro hp
            replace hp : m.renderMode = RenderMode.performance := hp
            rw [hr] at hp
            simp at hp
          · exact hm.systems_level
  · exact hm

theorem setRenderMode_inv (m : MgrState) (mode : RenderMode) (hm : MgrInv m) :
    MgrInv (setRenderMode m mode) := by
  cases mode with
  | performance =>
      rw [setRenderMode]
      dsimp only
      split
      · next hi =>
          replace hi : m.isInteracting = true := hi
          refine ⟨?_, ?_, ?_, ?_, ?_, ?_, ?_⟩
          · intro _
            exact hm.interacting_fast hi
          · intro _
            rfl
          · intro _
            rfl
          · rintro _ ⟨k, hk⟩
            simp [clearTimeouts] at hk
          · intro _
            rfl
          · intro _ hni
            replace hni : m.isInteracting = false := hni
            rw [hi] at hni
            simp at hni
          · exact hm.systems_level
      · next hi =>
          replace hi : ¬ m.isInteracting = true := hi
          set n : MgrState := clearTimeouts { m with renderMode := .performance } with hn
          have hcl : (mgrSetLevel n .normal).currentLevel = .normal :=
            mgrSetLevel_currentLevel n .normal
          refine ⟨?_, ?_, ?_, ?_, ?_, ?_, ?_⟩
          · intro h
            exfalso
            replace h : (mgrSetLevel n LODLevel.normal).isInteracting = true := h
            rw [mgrSetLevel_isInteracting] at h
            exact hi h
          · intro _
            show (mgrSetLevel n LODLevel.normal).normalTimeout = none
            rw [mgrSetLevel_normalTimeout]
            rfl
          · intro _
            show (mgrSetLevel n LODLevel.normal).qualityTimeout = none
            rw [mgrSetLevel_qualityTimeout]
            rfl
          · rintro _ ⟨k, hk⟩
            replace hk : (mgrSetLevel n LODLevel.normal).normalTimeout
                = some (NormalTimerKind.accNormal, k) := hk
            rw [mgrSetLevel_normalTimeout] at hk
            simp [hn, clearTimeouts] at hk
          · intro _
            show (mgrSetLevel n LODLevel.normal).qualityTimeout = none
            rw [mgrSetLevel_qualityTimeout]
            rfl
          · intro _ _ hq
            replace hq : (mgrSetLevel n LODLevel.normal).currentLevel = LODLevel.quality := hq
            rw [hcl] at hq
            simp at hq
          · have hsys := mgrSetLevel_systems_level n .normal hm.systems_level
            have hmap := mem_map_shading_level perfShading_currentLOD
              (mgrSetLevel n LODLevel.normal).systems LODLevel.normal hsys
            intro s hs
            replace hs : s ∈ (mgrSetLevel n LODLevel.normal).systems.map perfShading := hs
            rcases hmap s hs with h1 | ⟨h1, _⟩
            · left
              show s.currentLOD = (mgrSetLevel n LODLevel.normal).currentLevel
              rw [hcl]
              exact h1
            · simp at h1
  | accuracy =>
      rw [setRenderMode]
      dsimp only
      split
      · next hi =>
          replace hi : m.isInteracting = true := hi
          refine ⟨?_, ?_, ?_, ?_, ?_, ?_, ?_⟩
          · intro _
            exact hm.interacting_fast hi
          · intro _
            exact hm.interacting_noNormal hi
          · intro _
            exact hm.interacting_noQuality hi
          · intro hp
            replace hp : RenderMode.accuracy = RenderMode.performance := hp
            simp at hp
          · intro hp
            replace hp : RenderMode.accuracy = RenderMode.performance := hp
            simp at hp
          · intro hp
            replace hp : RenderMode.accuracy = RenderMode.performance := hp
            simp at hp
          · exact hm.systems_level
      · next hi =>
          replace hi : ¬ m.isInteracting = true := hi
          set n : MgrState := { m with renderMode := RenderMode.accuracy } with hn
          have hcl : (mgrSetLevel n .quality).currentLevel = .quality :=
            mgrSetLevel_currentLevel n .quality
          refine ⟨?_, ?_, ?_, ?_, ?_, ?_, ?_⟩
          · intro h
            exfalso
            replace h : (mgrSetLevel n LODLevel.quality).isInteracting = true := h
            rw [mgrSetLevel_isInteracting] at h
            exact hi h
          · intro h
            exfalso
            replace h : (mgrSetLevel n LODLevel.quality).isInteracting = true := h
            rw [mgrSetLevel_isInteracting] at h
            exact hi h
          · intro h
            exfalso
            replace h : (mgrSetLevel n LODLevel.quality).isInteracting = true := h
            rw [mgrSetLevel_isInteracting] at h
            exact hi h
          · intro hp
            exfalso
            replace hp : (mgrSetLevel n LODLevel.quality).renderMode
                = RenderMode.performance := hp
            rw [mgrSetLevel_renderMode] at hp
            replace hp : RenderMode.accuracy = RenderMode.performance := hp
            simp at hp
          · intro hp
            exfalso
            replace hp : (mgrSetLevel n LODLevel.quality).renderMode
                = RenderMode.performance := hp
            rw [mgrSetLevel_renderMode] at hp
            replace hp : RenderMode.accuracy = RenderMode.performance := hp
            simp at hp
          · intro hp
            exfalso
            replace hp : (mgrSetLevel n LODLevel.quality).renderMode
                = RenderMode.performance := hp
            rw [mgrSetLevel_renderMode] at hp
            replace hp : RenderMode.accuracy = RenderMode.performance := hp
            simp at hp
          · have hsys := mgrSetLevel_systems_level n .quality hm.systems_level
            have hmap := mem_map_shading_level qualityShading_currentLOD
              (mgrSetLevel n LODLevel.quality).systems LODLevel.quality hsys
            intro s hs
            replace hs : s ∈ (mgrSetLevel n LODLevel.quality).systems.map qualityShading := hs
            rcases hmap s hs with h1 | ⟨h1, _⟩
            · left
              show s.currentLOD = (mgrSetLevel n LODLevel.quality).currentLevel
              rw [hcl]
              exact h1
            · simp at h1

theorem addSystem_inv (m : MgrState) (b : Bool) (hm : MgrInv m) :
    MgrInv (addSystem m b) := by
  rw [addSystem]
  split
  · next hcond =>
      obtain ⟨hperf, hidle⟩ := hcond
      refine ⟨?_, ?_, ?_, ?_, ?_, ?_, ?_⟩
      · intro h
        replace h : m.isInteracting = true := h
        rw [hidle] at h
        simp at h
      · intro h
        replace h : m.isInteracting = true := h
        rw [hidle] at h
        simp at h
      · intro h
        replace h : m.isInteracting = true := h
        rw [hidle] at h
        simp at h
      · intro _
        exact hm.perf_noAcc hperf
      · intro _
        exact hm.perf_noQuality hperf
      · intro _ _
        exact hm.perf_level hperf hidle
      · intro s hs
        replace hs : s ∈ m.systems
            ++ [perfShading (setLODLevel (createTripleLODSystem b) .normal)] := hs
        rw [List.mem_append] at hs
        rcases hs with hs | hs
        · exact hm.systems_level s hs
        · rw [List.mem_singleton] at hs
          subst hs
          have hLOD : (perfShading (setLODLevel (createTripleLODSystem b)
              LODLevel.normal)).currentLOD = LODLevel.normal := by
            rw [perfShading_currentLOD, setLODLevel_currentLOD]
          have hlv := hm.perf_level hperf hidle
          cases hl : m.currentLevel with
          | fast => exact Or.inr ⟨rfl, hLOD⟩
          | normal =>
              left
              rw [hLOD]
          | quality => exact absurd hl hlv
  · next hcond =>
      refine ⟨?_, ?_, ?_, ?_, ?_, ?_, ?_⟩
      · intro h
        exact hm.interacting_fast h
      · intro h
        exact hm.interacting_noNormal h
      · intro h
        exact hm.interacting_noQuality h
      · intro hp
        exact hm.perf_noAcc hp
      · intro hp
        exact hm.perf_noQuality hp
      · intro hp hni
        exact hm.perf_level hp hni
      · intro s hs
        replace hs : s ∈ m.systems
            ++ [setLODLevel (createTripleLODSystem b) m.currentLevel] := hs
        rw [List.mem_append] at hs
        rcases hs with hs | hs
        · exact hm.systems_level s hs
        · rw [List.mem_singleton] at hs
          subst hs
          left
          exact setLODLevel_currentLOD _ _

theorem fireNormalTimeout_inv (m : MgrState) (hm : MgrInv m) :
    MgrInv (fireNormalTimeout m) := by
  rw [fireNormalTimeout.eq_def]
  split
  · exact hm
  · next k hnt =>
      have hni : m.isInteracting = false := by
        cases h : m.isInteracting
        · rfl
        · exfalso
          have h2 := hm.interacting_noNormal h
          rw [h2] at hnt
          simp at hnt
      dsimp only
      set n : MgrState := { m with normalTimeout := none } with hn
      have hcl : (mgrSetLevel n .normal).currentLevel = .normal :=
        mgrSetLevel_currentLevel n .normal
      refine ⟨?_, ?_, ?_, ?_, ?_, ?_, ?_⟩
      · intro h
        exfalso
        replace h : (mgrSetLevel n LODLevel.normal).isInteracting = true := h
        rw [mgrSetLevel_isInteracting] at h
        replace h : m.isInteracting = true := h
        rw [hni] at h
        simp at h
      · intro _
        show (mgrSetLevel n LODLevel.normal).normalTimeout = none
        rw [mgrSetLevel_normalTimeout]
      · intro h
        exfalso
        replace h : (mgrSetLevel n LODLevel.normal).isInteracting = true := h
        rw [mgrSetLevel_isInteracting] at h
        replace h : m.isInteracting = true := h
        rw [hni] at h
        simp at h
      · rintro _ ⟨k', hk⟩
        replace hk : (mgrSetLevel n LODLevel.normal).normalTimeout
            = some (NormalTimerKind.accNormal, k') := hk
        rw [mgrSetLevel_normalTimeout] at hk
        simp [hn] at hk
      · intro hp
        replace hp : (mgrSetLevel n LODLevel.normal).renderMode = RenderMode.performance := hp
        rw [mgrSetLevel_renderMode] at hp
        show (mgrSetLevel n LODLevel.normal).qualityTimeout = none
        rw [mgrSetLevel_qualityTimeout]
        exact hm.perf_noQuality hp
      · intro _ _ hq
        replace hq : (mgrSetLevel n LODLevel.normal).currentLevel = LODLevel.quality := hq
        rw [hcl] at hq
        simp at hq
      · have hsys := mgrSetLevel_systems_level n .normal hm.systems_level
        have hmap := mem_map_shading_level perfShading_currentLOD
          (mgrSetLevel n LODLevel.normal).systems LODLevel.normal hsys
        intro s hs
        replace hs : s ∈ (mgrSetLevel n LODLevel.normal).systems.map perfShading := hs
        rcases hmap s hs with h1 | ⟨h1, _⟩
        · left
          show s.currentLOD = (mgrSetLevel n LODLevel.normal).currentLevel
          rw [hcl]
          exact h1
        · simp at h1
  · next k hnt =>
      have hni : m.isInteracting = false := by
        cases h : m.isInteracting
        · rfl
        · exfalso
          have h2 := hm.interacting_noNormal h
          rw [h2] at hnt
          simp at hnt
      have hmode : m.renderMode = RenderMode.accuracy := by
        cases h : m.renderMode
        · exfalso
          exact hm.perf_noAcc h ⟨k, hnt⟩
        · rfl
      dsimp only
      set n : MgrState := { m with normalTimeout := none } with hn
      have hcl : (mgrSetLevel n .normal).currentLevel = .normal :=
        mgrSetLevel_currentLevel n .normal
      refine ⟨?_, ?_, ?_, ?_, ?_, ?_, ?_⟩
      · intro h
        exfalso
        replace h : (mgrSetLevel n LODLevel.normal).isInteracting = true := h
        rw [mgrSetLevel_isInteracting] at h
        replace h : m.isInteracting = true := h
        rw [hni] at h
        simp at h
      · intro h
        exfalso
        replace h : (mgrSetLevel n LODLevel.normal).isInteracting = true := h
        rw [mgrSetLevel_isInteracting] at h
        replace h : m.isInteracting = true := h
        rw [hni] at h
        simp at h
      · intro h
        exfalso
        replace h : (mgrSetLevel n LODLevel.normal).isInteracting = true := h
        rw [mgrSetLevel_isInteracting] at h
        replace h : m.isInteracting = true := h
        rw [hni] at h
        simp at h
      · intro hp
        exfalso
        replace hp : (mgrSetLevel n LODLevel.normal).renderMode = RenderMode.performance := hp
        rw [mgrSetLevel_renderMode] at hp
        replace hp : m.renderMode = RenderMode.performance := hp
        rw [hmode] at hp
        simp at hp
      · intro hp
        exfalso
        replace hp : (mgrSetLevel n LODLevel.normal).renderMode = RenderMode.performance := hp
        rw [mgrSetLevel_renderMode] at hp
        replace hp : m.renderMode = RenderMode.performance := hp
        rw [hmode] at hp
        simp at hp
      · intro hp
        exfalso
        replace hp : (mgrSetLevel n LODLevel.normal).renderMode = RenderMode.performance := hp
        rw [mgrSetLevel_renderMode] at hp
        replace hp : m.renderMode = RenderMode.performance := hp
        rw [hmode] at hp
        simp at hp
      · have hsys := mgrSetLevel_systems_level n .normal hm.systems_level
        intro s hs
        replace hs : s ∈ (mgrSetLevel n LODLevel.normal).systems := hs
        rcases hsys s hs with h1 | ⟨h1, _⟩
        · left
          show s.currentLOD = (mgrSetLevel n LODLevel.normal).currentLevel
          rw [hcl]
          exact h1
        · simp at h1

theorem fireQualityTimeout_inv (m : MgrState) (hm : MgrInv m) :
    MgrInv (fireQualityTimeout m) := by
  rw [fireQualityTimeout.eq_def]
  split
  · exact hm
  · next k hqt =>
      have hni : m.isInteracting = false := by
        cases h : m.isInteracting
        · rfl
        · exfalso
          have h2 := hm.interacting_noQuality h
          rw [h2] at hqt
          simp at hqt
      have hmode : m.renderMode = RenderMode.accuracy := by
        cases h : m.renderMode
        · exfalso
          have h2 := hm.perf_noQuality h
          rw [h2] at hqt
          simp at hqt
        · rfl
      dsimp only
      set n : MgrState := { m with qualityTimeout := none } with hn
      have hcl : (mgrSetLevel n .quality).currentLevel = .quality :=
        mgrSetLevel_currentLevel n .quality
      refine ⟨?_, ?_, ?_, ?_, ?_, ?_, ?_⟩
      · intro h
        exfalso
        replace h : (mgrSetLevel n LODLevel.quality).isInteracting = true := h
        rw [mgrSetLevel_isInteracting] at h
        replace h : m.isInteracting = true := h
        rw [hni] at h
        simp at h
      · intro h
        exfalso
        replace h : (mgrSetLevel n LODLevel.quality).isInteracting = true := h
        rw [mgrSetLevel_isInteracting] at h
        replace h : m.isInteracting = true := h
        rw [hni] at h
        simp at h
      · intro h
        exfalso
        replace h : (mgrSetLevel n LODLevel.quality).isInteracting = true := h
        rw [mgrSetLevel_isInteracting] at h
        replace h : m.isInteracting = true := h
        rw [hni] at h
        simp at h
      · intro hp
        exfalso
        replace hp : (mgrSetLevel n LODLevel.quality).renderMode = RenderMode.performance := hp
        rw [mgrSetLevel_renderMode] at hp
        replace hp : m.renderMode = RenderMode.performance := hp
        rw [hmode] at hp
        simp at hp
      · intro hp
        exfalso
        replace hp : (mgrSetLevel n LODLevel.quality).renderMode = RenderMode.performance := hp
        rw [mgrSetLevel_renderMode] at hp
        replace hp : m.renderMode = RenderMode.performance := hp
        rw [hmode] at hp
        simp at hp
      · intro hp
        exfalso
        replace hp : (mgrSetLevel n LODLevel.quality).renderMode = RenderMode.performance := hp
        rw [mgrSetLevel_renderMode] at hp
        replace hp : m.renderMode = RenderMode.performance := hp
        rw [hmode] at hp
        simp at hp
      · have hsys := mgrSetLevel_systems_level n .quality hm.systems_level
        intro s hs
        replace hs : s ∈ (mgrSetLevel n LODLevel.quality).systems := hs
        rcases hsys s hs with h1 | ⟨h1, _⟩
        · left
          show s.currentLOD = (mgrSetLevel n LODLevel.quality).currentLevel
          rw [hcl]
          exact h1
        · simp at h1

theorem stepOp_inv (m : MgrState) (op : MgrOp) (hm : MgrInv m) :
    MgrInv (stepOp m op) := by
  cases op with
  | startI => exact startInteraction_inv m hm
  | endI => exact endInteraction_inv m hm
  | setMode mode => exact setRenderMode_inv m mode hm
  | add b => exact addSystem_inv m b hm
  | tickNormal => exact fireNormalTimeout_inv m hm
  | tickQuality => exact fireQualityTimeout_inv m hm

theorem runOps_inv (ops : List MgrOp) (m : MgrState) (hm : MgrInv m) :
    MgrInv (runOps m ops) := by
  induction ops generalizing m with
  | nil => exact hm
  | cons op ops ih => exact ih (stepOp m op) (stepOp_inv m op hm)

/-- Every reachable manager state satisfies the invariant. -/
theorem reachable_inv (m : MgrState) (h : Reachable m) : MgrInv m := by
  obtain ⟨ops, rfl⟩ := h
  exact runOps_inv ops initMgr initMgr_inv

/-! ### Timer-callback characterizations -/

theorem endInteraction_acc (m : MgrState) (hint : m.isInteracting = true)
    (hr : m.renderMode = RenderMode.accuracy) :
    endInteraction m = { m with
      isInteracting := false,
      normalTimeout := some (NormalTimerKind.accNormal, lodTimeoutToNormal) } := by
  rw [endInteraction, if_pos hint]
  dsimp only
  rw [hr]

theorem endInteraction_perf (m : MgrState) (hint : m.isInteracting = true)
    (hr : m.renderMode = RenderMode.performance) :
    endInteraction m = { m with
      isInteracting := false,
      normalTimeout := some (NormalTimerKind.perfNormal, lodTimeoutToNormal) } := by
  rw [endInteraction, if_pos hint]
  dsimp only
  rw [hr]

theorem fireNormalTimeout_acc (m : MgrState) (k : Nat)
    (h : m.normalTimeout = some (NormalTimerKind.accNormal, k)) :
    (fireNormalTimeout m).currentLevel = LODLevel.normal
    ∧ (fireNormalTimeout m).qualityTimeout = some lodTimeoutToQuality := by
  rw [fireNormalTimeout.eq_def, h]
  dsimp only
  exact ⟨mgrSetLevel_currentLevel _ _, rfl⟩

theorem fireNormalTimeout_perf (m : MgrState) (k : Nat)
    (h : m.normalTimeout = some (NormalTimerKind.perfNormal, k)) :
    (fireNormalTimeout m).currentLevel = LODLevel.normal
    ∧ (fireNormalTimeout m).qualityTimeout = m.qualityTimeout := by
  rw [fireNormalTimeout.eq_def, h]
  dsimp only
  refine ⟨mgrSetLevel_currentLevel _ _, ?_⟩
  show (mgrSetLevel { m with normalTimeout := none } LODLevel.normal).qualityTimeout
      = m.qualityTimeout
  rw [mgrSetLevel_qualityTimeout]

theorem fireQualityTimeout_some (m : MgrState) (k : Nat)
    (h : m.qualityTimeout = some k) :
    (fireQualityTimeout m).currentLevel = LODLevel.quality := by
  rw [fireQualityTimeout.eq_def, h]
  dsimp only
  exact mgrSetLevel_currentLevel _ _

/-- States in which only timer callbacks can run and the level can
never become `quality`: performance mode, no quality timer, no
accuracy-variant normal timer, level not `quality`. -/
def PerfQuiesce (m : MgrState) : Prop :=
  m.renderMode = RenderMode.performance
  ∧ m.qualityTimeout = none
  ∧ ¬ accNormalPending m
  ∧ ¬ m.currentLevel = LODLevel.quality

theorem fireNormalTimeout_perfQuiesce (m : MgrState) (h : PerfQuiesce m) :
    PerfQuiesce (fireNormalTimeout m) := by
  obtain ⟨hmode, hqt, hacc, hlvl⟩ := h
  rw [fireNormalTimeout.eq_def]
  split
  · exact ⟨hmode, hqt, hacc, hlvl⟩
  · next k hnt =>
      dsimp only
      set n : MgrState := { m with normalTimeout := none } with hn
      refine ⟨?_, ?_, ?_, ?_⟩
      · show (mgrSetLevel n LODLevel.normal).renderMode = RenderMode.performance
        rw [mgrSetLevel_renderMode]
        exact hmode
      · show (mgrSetLevel n LODLevel.normal).qualityTimeout = none
        rw [mgrSetLevel_qualityTimeout]
        exact hqt
      · rintro ⟨k', hk⟩
        replace hk : (mgrSetLevel n LODLevel.normal).normalTimeout
            = some (NormalTimerKind.accNormal, k') := hk
        rw [mgrSetLevel_normalTimeout] at hk
        simp [hn] at hk
      · intro hq
        replace hq : (mgrSetLevel n LODLevel.normal).currentLevel = LODLevel.quality := hq
        rw [mgrSetLevel_currentLevel] at hq
        simp at hq
  · next k hnt =>
      exact absurd ⟨k, hnt⟩ hacc

theorem fireQualityTimeout_perfQuiesce (m : MgrState) (h : PerfQuiesce m) :
    PerfQuiesce (fireQualityTimeout m) := by
  obtain ⟨hmode, hqt, hacc, hlvl⟩ := h
  rw [fireQualityTimeout.eq_def]
  split
  · exact ⟨hmode, hqt, hacc, hlvl⟩
  · next k hk =>
      rw [hqt] at hk
      simp at hk

theorem runOps_ticks_perfQuiesce (ops : List MgrOp) (m : MgrState) (h : PerfQuiesce m)
    (hops : ∀ op ∈ ops, op = MgrOp.tickNormal ∨ op = MgrOp.tickQuality) :
    PerfQuiesce (runOps m ops) := by
  induction ops generalizing m with
  | nil => exact h
  | cons op ops ih =>
      have hstep : PerfQuiesce (stepOp m op) := by
        rcases hops op (List.mem_cons_self op ops) with rfl | rfl
        · exact fireNormalTimeout_perfQuiesce m h
        · exact fireQualityTimeout_perfQuiesce m h
      exact ih (stepOp m op) hstep (fun o ho => hops o (List.mem_cons_of_mem op ho))

/-! ### Claims about the LOD state manager -/

/-- **C1 counterexample**: the reachable event sequence `setRenderMode
performance; startInteraction; endInteraction; addSystem (mask);
startInteraction` ends with the second registered system still at
`normal` after `startInteraction` returned — not every registered
system displays `fast` (the manager itself is already at `fast`, so its
`setLevel('fast')` early-returns and skips the late-added system);
the final `startInteraction` really is a fresh call (the state before
it was not interacting). -/
theorem claim_C1_counterexample :
    ((runOps initMgr [MgrOp.setMode .performance, MgrOp.startI, MgrOp.endI,
        MgrOp.add true, MgrOp.startI]).systems.map (fun s => s.currentLOD))
      = [LODLevel.fast, LODLevel.normal]
    ∧ (runOps initMgr [MgrOp.setMode .performance, MgrOp.startI, MgrOp.endI,
        MgrOp.add true, MgrOp.startI]).currentLevel = LODLevel.fast
    ∧ (runOps initMgr [MgrOp.setMode .performance, MgrOp.startI, MgrOp.endI,
        MgrOp.add true]).isInteracting = false :=
  ⟨by decide, by decide, by decide⟩

/-- **C1 (amended).** For every reachable manager state,
`startInteraction()` leaves both debounce timers cleared and the
manager's `currentLevel` at `fast` by the time it returns; and provided
every registered system was at the manager's level beforehand, every
registered system displays `fast`.  (Without that proviso a system
added during a performance-mode debounce window can sit at `normal` and
is not forced to `fast` when the manager is already at `fast`.) -/
theorem claim_C1_amended_start_forces_fast (m : MgrState) (hreach : Reachable m) :
    (startInteraction m).normalTimeout = none
    ∧ (startInteraction m).qualityTimeout = none
    ∧ (startInteraction m).currentLevel = LODLevel.fast
    ∧ ((∀ s ∈ m.systems, s.currentLOD = m.currentLevel) →
        ∀ s ∈ (startInteraction m).systems, s.currentLOD = LODLevel.fast) := by
  have hinv := reachable_inv m hreach
  rw [startInteraction]
  split
  · next hi =>
      refine ⟨hinv.interacting_noNormal hi, hinv.interacting_noQuality hi,
        hinv.interacting_fast hi, ?_⟩
      intro huni s hs
      rw [huni s hs]
      exact hinv.interacting_fast hi
  · next hi =>
      set n : MgrState := clearTimeouts { m with isInteracting := true } with hn
      refine ⟨?_, ?_, mgrSetLevel_currentLevel n .fast, ?_⟩
      · rw [mgrSetLevel_normalTimeout]
        rfl
      · rw [mgrSetLevel_qualityTimeout]
        rfl
      · intro huni s hs
        by_cases hcl : n.currentLevel = LODLevel.fast
        · rw [mgrSetLevel_eq_self n .fast hcl] at hs
          rw [huni s hs]
          exact hcl
        · rw [mgrSetLevel_map n .fast hcl] at hs
          replace hs : s ∈ n.systems.map (fun s0 => setLODLevel s0 LODLevel.fast) := hs
          simp only [List.mem_map] at hs
          obtain ⟨s0, _, rfl⟩ := hs
          exact setLODLevel_currentLOD s0 .fast

/-- **C1 witness**: applying the amended statement at the initial
manager state. -/
theorem claim_C1_amended_start_forces_fast_witness :
    (startInteraction initMgr).normalTimeout = none
    ∧ (startInteraction initMgr).currentLevel = LODLevel.fast
    ∧ ∀ s ∈ (startInteraction initMgr).systems, s.currentLOD = LODLevel.fast := by
  have h := claim_C1_amended_start_forces_fast initMgr ⟨[], rfl⟩
  exact ⟨h.1, h.2.2.1, h.2.2.2 (by decide)⟩

/-- **C2.** From any reachable interacting state, `endInteraction()`
schedules a ≈100 ms debounce to `normal`; in accuracy mode the `normal`
callback chains a further ≈300 ms debounce whose callback reaches
`quality`; in performance mode the `normal` callback is terminal: no
quality timer exists and no sequence of timer callbacks can ever bring
the level to `quality`. -/
theorem claim_C2_end_interaction_debounce (m : MgrState) (hreach : Reachable m)
    (hint : m.isInteracting = true) :
    lodTimeoutToNormal = 100
    ∧ lodTimeoutToQuality = 300
    ∧ (m.renderMode = RenderMode.accuracy →
        (endInteraction m).normalTimeout
            = some (NormalTimerKind.accNormal, lodTimeoutToNormal)
        ∧ (fireNormalTimeout (endInteraction m)).currentLevel = LODLevel.normal
        ∧ (fireNormalTimeout (endInteraction m)).qualityTimeout = some lodTimeoutToQuality
        ∧ (fireQualityTimeout (fireNormalTimeout (endInteraction m))).currentLevel
            = LODLevel.quality)
    ∧ (m.renderMode = RenderMode.performance →
        (endInteraction m).normalTimeout
            = some (NormalTimerKind.perfNormal, lodTimeoutToNormal)
        ∧ (fireNormalTimeout (endInteraction m)).currentLevel = LODLevel.normal
        ∧ (fireNormalTimeout (endInteraction m)).qualityTimeout = none
        ∧ ∀ ops : List MgrOp,
            (∀ op ∈ ops, op = MgrOp.tickNormal ∨ op = MgrOp.tickQuality) →
            ¬ (runOps (endInteraction m) ops).currentLevel = LODLevel.quality) := by
  have hinv := reachable_inv m hreach
  refine ⟨rfl, rfl, ?_, ?_⟩
  · intro hracc
    have he := endInteraction_acc m hint hracc
    have hnt : (endInteraction m).normalTimeout
        = some (NormalTimerKind.accNormal, lodTimeoutToNormal) := by
      rw [he]
    have hfn := fireNormalTimeout_acc (endInteraction m) lodTimeoutToNormal hnt
    exact ⟨hnt, hfn.1, hfn.2, fireQualityTimeout_some _ lodTimeoutToQuality hfn.2⟩
  · intro hrperf
    have he := endInteraction_perf m hint hrperf
    have hnt : (endInteraction m).normalTimeout
        = some (NormalTimerKind.perfNormal, lodTimeoutToNormal) := by
      rw [he]
    have hqt0 : (endInteraction m).qualityTimeout = none := by
      rw [he]
      exact hinv.interacting_noQuality hint
    have hfn := fireNormalTimeout_perf (endInteraction m) lodTimeoutToNormal hnt
    refine ⟨hnt, hfn.1, by rw [hfn.2]; exact hqt0, ?_⟩
    intro ops hops
    have hpq : PerfQuiesce (endInteraction m) := by
      refine ⟨?_, hqt0, ?_, ?_⟩
      · rw [he]
        exact hrperf
      · rintro ⟨k, hk⟩
        rw [hnt] at hk
        simp at hk
      · rw [he]
        show ¬ m.currentLevel = LODLevel.quality
        rw [hinv.interacting_fast hint]
        simp
    exact (runOps_ticks_perfQuiesce ops (endInteraction m) hpq hops).2.2.2

/-- **C2 witness**: start interacting from construction (accuracy
mode), end the interaction, let both timers fire: the level is
`quality`. -/
theorem claim_C2_end_interaction_debounce_witness :
    (fireQualityTimeout (fireNormalTimeout (endInteraction
        (startInteraction initMgr)))).currentLevel = LODLevel.quality := by
  have h := claim_C2_end_interaction_debounce (startInteraction initMgr)
    ⟨[MgrOp.startI], rfl⟩ (by decide)
  exact (h.2.2.1 (by decide)).2.2.2

/-- **C10 counterexample**: after `setRenderMode performance;
startInteraction; endInteraction; addSystem`, the manager is at `fast`
but the late-added system is at `normal`: the uniform-level invariant
as stated fails on a reachable state. -/
theorem claim_C10_counterexample :
    (runOps initMgr [MgrOp.setMode .performance, MgrOp.startI, MgrOp.endI,
        MgrOp.add true]).currentLevel = LODLevel.fast
    ∧ ((runOps initMgr [MgrOp.setMode .performance, MgrOp.startI, MgrOp.endI,
        MgrOp.add true]).systems.map (fun s => s.currentLOD))
      = [LODLevel.fast, LODLevel.normal] :=
  ⟨by decide, by decide⟩

/-- **C10 (amended).** In every reachable manager state, every
registered system is at the manager's `currentLevel`, except that a
system registered by `addSystem` during a performance-mode
post-interaction debounce window (manager at `fast`) sits at `normal`
until the next level change; in particular no system is ever left at
its construction default `quality` unless `quality` is the manager's
current level. -/
theorem claim_C10_amended_uniform_level (m : MgrState) (hreach : Reachable m) :
    ∀ s ∈ m.systems, s.currentLOD = m.currentLevel
      ∨ (m.currentLevel = LODLevel.fast ∧ s.currentLOD = LODLevel.normal) :=
  (reachable_inv m hreach).systems_level

/-- **C10 witness**: the amended invariant applied at the initial
state, whose single registered system indeed shows the manager's
level. -/
theorem claim_C10_amended_uniform_level_witness :
    (initMgr.systems.map (fun s => s.currentLOD)) = [initMgr.currentLevel]
    ∧ (∀ s ∈ initMgr.systems, s.currentLOD = initMgr.currentLevel
        ∨ (initMgr.currentLevel = LODLevel.fast ∧ s.currentLOD = LODLevel.normal)) :=
  ⟨by decide, claim_C10_amended_uniform_level initMgr ⟨[], rfl⟩⟩

/-! ## Clipping geometry (`updateClipPlanesGeometry`) -/

/-- An axis-aligned clipping plane as configured through
`vtkPlane.setOrigin` / `vtkPlane.setNormal`. -/
structure Plane where
  origin : ℚ × ℚ × ℚ
  normal : Int × Int × Int
deriving DecidableEq

/-- Per-axis clip percentage ranges (the viewer's `clipPlanes` state). -/
structure ClipState where
  x : ℚ × ℚ
  y : ℚ × ℚ
  z : ℚ × ℚ
deriving DecidableEq

/-- Physical bounds computed in `drawScan`:
`[0, nx*sx, 0, ny*sy, 0, nz*sz]`. -/
structure Bounds where
  x0 : ℚ
  x1 : ℚ
  y0 : ℚ
  y1 : ℚ
  z0 : ℚ
  z1 : ℚ
deriving DecidableEq

def boundsOf (d : Dims3) (s : Spacing3) : Bounds :=
  ⟨0, (d.nx : ℚ) * s.sx, 0, (d.ny : ℚ) * s.sy, 0, (d.nz : ℚ) * s.sz⟩

/-- Embedding of `updateClipPlanesGeometry`: recomputes all six planes
from all three axes' current percentages against the volume bounds. -/
def updateClipPlanesGeometry (b : Bounds) (c : ClipState) : List Plane :=
  let xMin := b.x0 + (c.x.1 / 100) * (b.x1 - b.x0)
  let xMax := b.x0 + (c.x.2 / 100) * (b.x1 - b.x0)
  let yMin := b.y0 + (c.y.1 / 100) * (b.y1 - b.y0)
  let yMax := b.y0 + (c.y.2 / 100) * (b.y1 - b.y0)
  let zMin := b.z0 + (c.z.1 / 100) * (b.z1 - b.z0)
  let zMax := b.z0 + (c.z.2 / 100) * (b.z1 - b.z0)
  [⟨(xMin, 0, 0), (1, 0, 0)⟩,
   ⟨(xMax, 0, 0), (-1, 0, 0)⟩,
   ⟨(0, yMin, 0), (0, 1, 0)⟩,
   ⟨(0, yMax, 0), (0, -1, 0)⟩,
   ⟨(0, 0, zMin), (0, 0, 1)⟩,
   ⟨(0, 0, zMax), (0, 0, -1)⟩]

/-- A zero plane used only as a `getD` fallback. -/
def nullPlane : Plane := ⟨(0, 0, 0), (0, 0, 0)⟩

/-- **C6.** For every bounds and clip percentages, the min-bound plane
of each axis sits at `bound_min + (minPct/100)*(bound_max - bound_min)`
with inward-positive normal and the max-bound plane at
`bound_min + (maxPct/100)*(bound_max - bound_min)` with inward-negative
normal; in particular clip range `[30,70]` on X with source bounds
`[0,240]` puts the X planes at physical 72 and 168. -/
theorem claim_C6_clip_plane_geometry :
    (∀ (b : Bounds) (c : ClipState),
      (updateClipPlanesGeometry b c).length = 6
      ∧ (updateClipPlanesGeometry b c).getD 0 nullPlane
          = ⟨(b.x0 + (c.x.1 / 100) * (b.x1 - b.x0), 0, 0), (1, 0, 0)⟩
      ∧ (updateClipPlanesGeometry b c).getD 1 nullPlane
          = ⟨(b.x0 + (c.x.2 / 100) * (b.x1 - b.x0), 0, 0), (-1, 0, 0)⟩
      ∧ (updateClipPlanesGeometry b c).getD 2 nullPlane
          = ⟨(0, b.y0 + (c.y.1 / 100) * (b.y1 - b.y0), 0), (0, 1, 0)⟩
      ∧ (updateClipPlanesGeometry b c).getD 3 nullPlane
          = ⟨(0, b.y0 + (c.y.2 / 100) * (b.y1 - b.y0), 0), (0, -1, 0)⟩
      ∧ (updateClipPlanesGeometry b c).getD 4 nullPlane
          = ⟨(0, 0, b.z0 + (c.z.1 / 100) * (b.z1 - b.z0)), (0, 0, 1)⟩
      ∧ (updateClipPlanesGeometry b c).getD 5 nullPlane
          = ⟨(0, 0, b.z0 + (c.z.2 / 100) * (b.z1 - b.z0)), (0, 0, -1)⟩)
    ∧ ((updateClipPlanesGeometry (boundsOf ⟨240, 240, 155⟩ ⟨1, 1, 1⟩)
          ⟨(30, 70), (0, 100), (0, 100)⟩).getD 0 nullPlane).origin.1 = 72
    ∧ ((updateClipPlanesGeometry (boundsOf ⟨240, 240, 155⟩ ⟨1, 1, 1⟩)
          ⟨(30, 70), (0, 100), (0, 100)⟩).getD 1 nullPlane).origin.1 = 168 := by
  refine ⟨fun b c => ⟨rfl, rfl, rfl, rfl, rfl, rfl, rfl⟩, ?_, ?_⟩
  · show (0 : ℚ) + (30 / 100) * ((240 : Nat) * (1 : ℚ) - 0) = 72
    norm_num
  · show (0 : ℚ) + (70 / 100) * ((240 : Nat) * (1 : ℚ) - 0) = 168
    norm_num

/-! ## Viewer facade mutators (`setBrainOpacity`, `setMaskOpacity`,
`setClipPlanes`) -/

/-- The facade-held state the opacity/clip mutators touch.
`renderRequests` counts `throttler.requestRender()` calls; the rebuilt
transfer-function control points are a pure function of the stored
opacity and are not duplicated here. -/
structure ViewerState where
  brainOpacity : ℚ
  maskOpacity : ℚ
  clipPlanes : ClipState
  renderRequests : Nat
deriving DecidableEq

/-- Embedding of the facade's `setBrainOpacity`: clamps into [0,1],
applies, requests a render.  It never throws and never rejects. -/
def setBrainOpacity (opacity : ℚ) (v : ViewerState) : ViewerState :=
  { v with brainOpacity := max 0 (min 1 opacity),
           renderRequests := v.renderRequests + 1 }

/-- Embedding of the facade's `setMaskOpacity`. -/
def setMaskOpacity (opacity : ℚ) (v : ViewerState) : ViewerState :=
  { v with maskOpacity := max 0 (min 1 opacity),
           renderRequests := v.renderRequests + 1 }

/-- Embedding of the facade's `setClipPlanes`: stores any provided
per-axis range verbatim (`if (planes.x) clipPlanes.x = planes.x`), with
no range validation, then requests a render. -/
def setClipPlanes (px py pz : Option (ℚ × ℚ)) (v : ViewerState) : ViewerState :=
  { v with clipPlanes := ⟨px.getD v.clipPlanes.x, py.getD v.clipPlanes.y,
             pz.getD v.clipPlanes.z⟩,
           renderRequests := v.renderRequests + 1 }

/-- The facade state right after `drawScan` construction. -/
def initViewer : ViewerState := ⟨1, 1, ⟨(0, 100), (0, 100), (0, 100)⟩, 0⟩

/-- **C8 counterexample**: `setBrainOpacity 2` (out of range) on a
viewer whose opacity is 1/2 is not rejected — the state changes to the
clamped value 1; and `setClipPlanes` with the invalid range
`(150, -10)` (out of [0,100] and min > max) stores it verbatim. -/
theorem claim_C8_counterexample :
    (setBrainOpacity (1/2) initViewer).brainOpacity = 1/2
    ∧ (setBrainOpacity 2 (setBrainOpacity (1/2) initViewer)).brainOpacity = 1
    ∧ setBrainOpacity 2 (setBrainOpacity (1/2) initViewer)
        ≠ setBrainOpacity (1/2) initViewer
    ∧ (setClipPlanes (some (150, -10)) none none initViewer).clipPlanes.x
        = (150, -10) := by
  have h1 : max (0 : ℚ) (min 1 (1/2)) = 1/2 := by
    rw [min_eq_right (by norm_num), max_eq_right (by norm_num)]
  have h2 : max (0 : ℚ) (min 1 2) = 1 := by
    rw [min_eq_left (by norm_num), max_eq_right (by norm_num)]
  refine ⟨?_, ?_, ?_, rfl⟩
  · show max (0 : ℚ) (min 1 (1/2)) = 1/2
    exact h1
  · show max (0 : ℚ) (min 1 2) = 1
    exact h2
  · intro h
    have hb := congrArg ViewerState.brainOpacity h
    replace hb : max (0 : ℚ) (min 1 2) = max 0 (min 1 (1/2)) := hb
    rw [h1, h2] at hb
    norm_num at hb

/-- **C8 (amended).** The mutators never reject: an out-of-range
opacity is clamped into [0,1] and applied (so the stored opacity always
lands in range, but prior state does change and no error surfaces), and
`setClipPlanes` stores whatever ranges it is given, unvalidated; each
call leaves the other fields untouched and issues one render
request. -/
theorem claim_C8_amended_clamp_not_reject (v : ViewerState) (o : ℚ)
    (px py pz : Option (ℚ × ℚ)) :
    (setBrainOpacity o v).brainOpacity = max 0 (min 1 o)
    ∧ 0 ≤ (setBrainOpacity o v).brainOpacity
    ∧ (setBrainOpacity o v).brainOpacity ≤ 1
    ∧ (setMaskOpacity o v).maskOpacity = max 0 (min 1 o)
    ∧ (setClipPlanes px py pz v).clipPlanes
        = ⟨px.getD v.clipPlanes.x, py.getD v.clipPlanes.y, pz.getD v.clipPlanes.z⟩
    ∧ (setBrainOpacity o v).maskOpacity = v.maskOpacity
    ∧ (setBrainOpacity o v).clipPlanes = v.clipPlanes
    ∧ (setBrainOpacity o v).renderRequests = v.renderRequests + 1 := by
  refine ⟨rfl, ?_, ?_, rfl, rfl, rfl, rfl, rfl⟩
  · exact le_max_left 0 (min 1 o)
  · exact max_le (by norm_num) (min_le_left 1 o)

end ThreeDMind
